import Mathlib

/-
  Verification development for the autodiff engine described by the
  repository's specification.  The repository itself is a tutorial notebook
  (src/2-Autograd.ipynb) that only calls into an external automatic
  differentiation library; the engine the specification describes (Value
  records, graph nodes, the backward engine, the tracking context) is not
  part of the source tree.  Consequently every definition below is modelled
  from the specification text (sections 3, 4 and 6 of spec.md), faithful to
  its words, and the claims are settled against this model.

  Tensors are modelled as lists of rationals; a scalar is a one-element
  list.  The primitive operation catalogue holds elementwise addition and
  multiplication, which suffice for every expression the claims mention
  (constants enter as leaf Values that do not require gradient).
-/

/-- Modelled from the spec: the catalogue of differentiable primitive
operations (spec §2 "Operation Registry", §4.1).  The engine itself is
missing from the repository source, so the catalogue is modelled from the
specification; elementwise `add` and `mul` cover all claimed scenarios. -/
inductive Op where
  | add
  | mul
deriving DecidableEq

/-- Modelled from the spec: a Graph Node (spec §3) links an output Value to
the operation that produced it and to the ordered inputs it consumed.  The
back-reference to the output Value is omitted, as §9 explicitly allows. -/
structure GraphNode where
  op : Op
  inputs : List Nat
deriving DecidableEq

/-- Modelled from the spec: the Value record (spec §3): numeric payload
`data`, gradient accumulator `gradient` (absent until a backward pass
writes it), `requires_grad`, the owning `producer` link (absent for
leaves), and the retain-gradient marker of §6 `retain_grad()`. -/
structure Value where
  data : List ℚ
  requires_grad : Bool
  gradient : Option (List ℚ)
  producer : Option GraphNode
  retains_grad : Bool
deriving DecidableEq

/-- A Value is a leaf exactly when it has no producing Graph Node. -/
def Value.is_leaf (v : Value) : Bool := v.producer.isNone

/-- The Value a lookup outside the arena returns. -/
def defaultValue : Value :=
  { data := [], requires_grad := false, gradient := none,
    producer := none, retains_grad := false }

/-- Modelled from the spec: the engine state — the arena of Values created
so far (a Value's identifier is its position, so a Graph Node's inputs
always precede it, making the graph a DAG, spec §3 invariant) together
with the process-wide tracking flag (spec §3 "Tracking Context"). -/
structure EngineState where
  values : List Value
  tracking : Bool
deriving DecidableEq

/-- Look a Value up by identifier. -/
def getV (s : EngineState) (i : Nat) : Value := s.values.getD i defaultValue

/-- Elementwise sum of two equally shaped tensors. -/
def addData (x y : List ℚ) : List ℚ := List.zipWith (· + ·) x y

/-- Elementwise product of two equally shaped tensors. -/
def mulData (x y : List ℚ) : List ℚ := List.zipWith (· * ·) x y

/-- Modelled from the spec: each registered operation's forward rule
(spec §4.1), a pure function from input data to output data. -/
def Op.forward : Op → List ℚ → List ℚ → List ℚ
  | .add, x, y => addData x y
  | .mul, x, y => mulData x y

/-- Modelled from the spec: each registered operation's backward rule
(spec §4.1): from the upstream gradient and the original inputs' data,
the gradient contribution for each of the two inputs (for `z = x*y`,
`dz/dx = y`, `dz/dy = x`). -/
def Op.backwardRule : Op → List ℚ → List ℚ → List ℚ → List ℚ × List ℚ
  | .add, g, _, _ => (g, g)
  | .mul, g, dx, dy => (mulData g dy, mulData g dx)

/-- Modelled from the spec: `Value.create` (spec §6) — a fresh leaf Value. -/
def mkLeaf (s : EngineState) (d : List ℚ) (rg : Bool) : EngineState :=
  { s with values := s.values ++
      [{ data := d, requires_grad := rg, gradient := none,
         producer := none, retains_grad := false }] }

/-- The Value an operation application appends (spec §4.1): if tracking is
enabled and at least one input requires gradient, the result requires
gradient, is not a leaf, and owns a Graph Node; otherwise the result is
produced with `requires_grad = false` and no Graph Node. -/
def newValue (s : EngineState) (op : Op) (i j : Nat) : Value :=
  if s.tracking && ((getV s i).requires_grad || (getV s j).requires_grad) then
    { data := op.forward (getV s i).data (getV s j).data,
      requires_grad := true, gradient := none,
      producer := some { op := op, inputs := [i, j] }, retains_grad := false }
  else
    { data := op.forward (getV s i).data (getV s j).data,
      requires_grad := false, gradient := none,
      producer := none, retains_grad := false }

/-- Modelled from the spec: `apply(operation, *inputs)` (spec §4.1, §6) —
compute the forward result and, when tracking demands it, record history.
The new Value's identifier is `s.values.length`. -/
def applyOp (s : EngineState) (op : Op) (i j : Nat) : EngineState :=
  { s with values := s.values ++ [newValue s op i j] }

/-- Modelled from the spec: `.detach()` (spec §4.2) — a new Value with
identical data, `requires_grad = false`, no producer (hence a leaf),
severed from any upstream history; the detached-from Value is not
mutated. -/
def detach (s : EngineState) (i : Nat) : EngineState :=
  { s with values := s.values ++
      [{ data := (getV s i).data, requires_grad := false, gradient := none,
         producer := none, retains_grad := false }] }

/-- Modelled from the spec: `retain_grad()` (spec §6) — mark a Value so
the backward pass keeps its gradient. -/
def retainGrad (s : EngineState) (i : Nat) : EngineState :=
  { s with values := s.values.set i { getV s i with retains_grad := true } }

/-- Add a gradient contribution into a pending-upstream-gradient slot
(accumulate, never overwrite; spec §4.3 step 4). -/
def addPend (p : Option (List ℚ)) (g : List ℚ) : Option (List ℚ) :=
  match p with
  | none => some g
  | some h => some (addData h g)

/-- Update one slot of the pending-gradient map. -/
def updatePend (pend : Nat → Option (List ℚ)) (k : Nat) (g : List ℚ) :
    Nat → Option (List ℚ) :=
  fun m => if m = k then addPend (pend m) g else pend m

/-- One step of the reverse traversal (spec §4.3 step 4): if Value `i` has
a pending gradient and a producing Graph Node, invoke the operation's
backward rule on the fully accumulated pending gradient and add each
contribution into the corresponding input's pending slot.  A Value with
no producer propagates nothing. -/
def backStep (dataOf : Nat → List ℚ) (prodOf : Nat → Option GraphNode)
    (i : Nat) (pend : Nat → Option (List ℚ)) : Nat → Option (List ℚ) :=
  match pend i, prodOf i with
  | some g, some node =>
    match node.inputs with
    | [a, b] =>
      let gs := node.op.backwardRule g (dataOf a) (dataOf b)
      updatePend (updatePend pend a gs.1) b gs.2
    | _ => pend
  | _, _ => pend

/-- The data of each Value in the arena, by identifier. -/
def dataOfS (s : EngineState) : Nat → List ℚ := fun k => (getV s k).data

/-- The producer of each Value in the arena, by identifier. -/
def prodOfS (s : EngineState) : Nat → Option GraphNode := fun k => (getV s k).producer

/-- Modelled from the spec: the reverse topological traversal (spec §4.3
step 3).  Identifiers are assigned in creation order, so every Graph
Node's inputs precede its output; processing identifiers in decreasing
order therefore invokes a node's backward rule only after the
contributions from all of its consumers have been accumulated —
equivalent to the dependency counting the spec mandates, and never once
per incoming path. -/
def runBack (s : EngineState) : Nat → (Nat → Option (List ℚ)) → Nat → Option (List ℚ)
  | 0, pend => backStep (dataOfS s) (prodOfS s) 0 pend
  | i + 1, pend => runBack s i (backStep (dataOfS s) (prodOfS s) (i + 1) pend)

/-- The pending-upstream-gradient map a backward pass from `out` with seed
`seedv` computes: the seed is placed on `out` and propagated backwards. -/
def pendingOf (s : EngineState) (out : Nat) (seedv : List ℚ) :
    Nat → Option (List ℚ) :=
  runBack s out (fun m => if m = out then some seedv else none)

/-- Accumulate a pending gradient into a persistent gradient attribute
(`+=` semantics across backward calls, spec §4.3 step 5). -/
def accumGrad (old : Option (List ℚ)) (g : List ℚ) : List ℚ :=
  match old with
  | none => g
  | some h => addData h g

/-- Gradient write-back for one Value (spec §4.3 steps 5–6): a leaf Value,
or one marked to retain its gradient, that requires gradient has its
pending gradient added into its persistent `gradient` attribute; every
other Value's pending gradient is discarded. -/
def writeOne (v : Value) (p : Option (List ℚ)) : Value :=
  if v.requires_grad && (v.producer.isNone || v.retains_grad) then
    match p with
    | some g => { v with gradient := some (accumGrad v.gradient g) }
    | none => v
  else v

/-- Gradient write-back over the arena; `i` is the identifier of the first
listed Value. -/
def writeGrads : List Value → Nat → (Nat → Option (List ℚ)) → List Value
  | [], _, _ => []
  | v :: vs, i, pend => writeOne v (pend i) :: writeGrads vs (i + 1) pend

/-- Modelled from the spec: the backward engine's error taxonomy
(spec §4.3 steps 1–2, §7). -/
inductive BackwardError where
  | shapeError
  | graphError
deriving DecidableEq

/-- A tensor is a scalar when it holds exactly one element. -/
def isScalar (d : List ℚ) : Bool := d.length == 1

/-- Modelled from the spec: `backward(output, seed)` (spec §4.3).  Step 1:
ShapeError when the output is non-scalar and no seed is supplied; step 2:
GraphError when the output does not require gradient.  Otherwise the
reverse traversal runs from `out` (seed defaults to 1 for a scalar) and
gradients are written back into leaves and retained Values.  An error
result carries no state, so on failure no Value's gradient is written. -/
def backward (s : EngineState) (out : Nat) (seed : Option (List ℚ)) :
    Except BackwardError EngineState :=
  if seed.isNone && !(isScalar (getV s out).data) then
    .error .shapeError
  else if !(getV s out).requires_grad then
    .error .graphError
  else
    .ok { s with values := writeGrads s.values 0 (pendingOf s out (seed.getD [1])) }

/-- Modelled from the spec: entering the `no_grad` scope (spec §4.4) —
record the prior tracking flag and disable tracking. -/
def enterNoGrad (s : EngineState) : Bool × EngineState :=
  (s.tracking, { s with tracking := false })

/-- Modelled from the spec: leaving the `no_grad` scope (spec §4.4) —
restore the recorded prior tracking flag. -/
def exitNoGrad (prior : Bool) (s : EngineState) : EngineState :=
  { s with tracking := prior }

/-- A straight-line program of operation applications, used to model the
body of a `no_grad` scope. -/
def applyMany (s : EngineState) (prog : List (Op × Nat × Nat)) : EngineState :=
  prog.foldl (fun t step => applyOp t step.1 step.2.1 step.2.2) s

/-- The notebook's polynomial scenario `y = 3 * x^2 + 4` at `x = 2`:
identifiers 0:`x`, 1:`3`, 2:`x*x`, 3:`3*(x*x)`, 4:`4`, 5:`y`. -/
def polyState : EngineState :=
  applyOp (mkLeaf (applyOp (applyOp (mkLeaf (mkLeaf ⟨[], true⟩ [2] true) [3] false)
    .mul 0 0) .mul 1 2) [4] false) .add 3 4

/-- The spec's diamond scenario `b = a + 2; c = 5*a; d = b + c` for a leaf
`a` holding `q`: identifiers 0:`a`, 1:`2`, 2:`b`, 3:`5`, 4:`c`, 5:`d`. -/
def diamond (q : ℚ) : EngineState :=
  applyOp (applyOp (mkLeaf (applyOp (mkLeaf (mkLeaf ⟨[], true⟩ [q] true) [2] false)
    .add 0 1) [5] false) .mul 3 0) .add 2 4

/-- A state holding a single non-scalar Value that does not require
gradient. -/
def cexState : EngineState :=
  { values := [{ data := [1, 2], requires_grad := false, gradient := none,
                 producer := none, retains_grad := false }], tracking := true }

/-- A leaf `x = 3` requiring gradient and the node `y = x * x`. -/
def wit3State : EngineState := applyOp (mkLeaf ⟨[], true⟩ [3] true) .mul 0 0

/-- The state `wit3State` reaches after one backward pass from `y`. -/
def wit3State1 : EngineState :=
  { values := [{ data := [3], requires_grad := true, gradient := some [6],
                 producer := none, retains_grad := false },
               { data := [9], requires_grad := true, gradient := none,
                 producer := some { op := Op.mul, inputs := [0, 0] }, retains_grad := false }],
    tracking := true }

/-- A leaf `7` requiring gradient and one node computed from it. -/
def wit4State : EngineState := applyOp (mkLeaf ⟨[], true⟩ [7] true) .add 0 0

/-- A single leaf requiring gradient, with tracking disabled. -/
def wit5State : EngineState :=
  { values := [{ data := [3], requires_grad := true, gradient := none,
                 producer := none, retains_grad := false }], tracking := false }

/-- A single scalar leaf that does not require gradient. -/
def wit6State : EngineState :=
  { values := [{ data := [5], requires_grad := false, gradient := none,
                 producer := none, retains_grad := false }], tracking := true }

/-- A leaf `x = 2` requiring gradient and the node `y = x + x`. -/
def wit7State : EngineState := applyOp (mkLeaf ⟨[], true⟩ [2] true) .add 0 0

/-- The state `wit7State` reaches after one backward pass from `y`. -/
def wit7State1 : EngineState :=
  { values := [{ data := [2], requires_grad := true, gradient := some [2],
                 producer := none, retains_grad := false },
               { data := [4], requires_grad := true, gradient := none,
                 producer := some { op := Op.add, inputs := [0, 0] }, retains_grad := false }],
    tracking := true }

/-- An empty arena with tracking enabled. -/
def wit8State : EngineState := { values := [], tracking := true }

/-- A single leaf requiring gradient, with tracking enabled. -/
def wit9State : EngineState :=
  { values := [{ data := [2], requires_grad := true, gradient := none,
                 producer := none, retains_grad := false }], tracking := true }

/-- A leaf `x = 5` requiring gradient and the node `y = x * x`. -/
def wit10State : EngineState := applyOp (mkLeaf ⟨[], true⟩ [5] true) .mul 0 0

/-- The state `wit10State` reaches after one backward pass from `y`. -/
def wit10State1 : EngineState :=
  { values := [{ data := [5], requires_grad := true, gradient := some [10],
                 producer := none, retains_grad := false },
               { data := [25], requires_grad := true, gradient := none,
                 producer := some { op := Op.mul, inputs := [0, 0] }, retains_grad := false }],
    tracking := true }

lemma getD_append_lt {α} (l l' : List α) (d : α) (k : Nat) (h : k < l.length) :
    (l ++ l').getD k d = l.getD k d := by
  induction l generalizing k with
  | nil => exact absurd h (Nat.not_lt_zero k)
  | cons a t ih =>
    cases k with
    | zero => rfl
    | succ m => exact ih m (Nat.lt_of_succ_lt_succ h)

lemma getD_append_self {α} (l : List α) (x : α) (d : α) :
    (l ++ [x]).getD l.length d = x := by
  induction l with
  | nil => rfl
  | cons a t ih => exact ih

lemma getD_set_self {α} (l : List α) (i : Nat) (x d : α) (h : i < l.length) :
    (l.set i x).getD i d = x := by
  induction l generalizing i with
  | nil => exact absurd h (Nat.not_lt_zero i)
  | cons a t ih =>
    cases i with
    | zero => rfl
    | succ m => exact ih m (Nat.lt_of_succ_lt_succ h)

lemma getD_set_ne {α} (l : List α) (i k : Nat) (x d : α) (h : k ≠ i) :
    (l.set i x).getD k d = l.getD k d := by
  induction l generalizing i k with
  | nil => rfl
  | cons a t ih =>
    cases i with
    | zero =>
      cases k with
      | zero => exact absurd rfl h
      | succ m => rfl
    | succ j =>
      cases k with
      | zero => rfl
      | succ m => exact ih j m (fun hc => h (congrArg Nat.succ hc))

lemma set_of_length_le {α} (l : List α) (i : Nat) (x : α) (h : l.length ≤ i) :
    l.set i x = l := by
  induction l generalizing i with
  | nil => rfl
  | cons a t ih =>
    cases i with
    | zero => exact absurd h (by simp)
    | succ m => simpa using ih m (Nat.le_of_succ_le_succ h)

lemma writeOne_data (v : Value) (p : Option (List ℚ)) : (writeOne v p).data = v.data := by
  unfold writeOne
  split
  · split <;> rfl
  · rfl

lemma writeOne_rg (v : Value) (p : Option (List ℚ)) :
    (writeOne v p).requires_grad = v.requires_grad := by
  unfold writeOne
  split
  · split <;> rfl
  · rfl

lemma writeOne_producer (v : Value) (p : Option (List ℚ)) :
    (writeOne v p).producer = v.producer := by
  unfold writeOne
  split
  · split <;> rfl
  · rfl

lemma writeOne_retains (v : Value) (p : Option (List ℚ)) :
    (writeOne v p).retains_grad = v.retains_grad := by
  unfold writeOne
  split
  · split <;> rfl
  · rfl

lemma writeOne_defaultValue (p : Option (List ℚ)) : writeOne defaultValue p = defaultValue := rfl

lemma writeGrads_getD (vs : List Value) (i k : Nat) (pend : Nat → Option (List ℚ)) :
    (writeGrads vs i pend).getD k defaultValue = writeOne (vs.getD k defaultValue) (pend (i + k)) := by
  induction vs generalizing i k with
  | nil => simp [writeGrads, List.getD, writeOne_defaultValue]
  | cons v vs ih =>
    cases k with
    | zero => rfl
    | succ m =>
      have harith : i + (m + 1) = (i + 1) + m := by omega
      rw [harith]
      exact ih (i + 1) m

lemma writeGrads_length (vs : List Value) (i : Nat) (pend : Nat → Option (List ℚ)) :
    (writeGrads vs i pend).length = vs.length := by
  induction vs generalizing i with
  | nil => rfl
  | cons v vs ih => simpa [writeGrads] using ih (i + 1)

lemma backward_ok_elim (s : EngineState) (out : Nat) (sd : Option (List ℚ))
    (s' : EngineState) (h : backward s out sd = .ok s') :
    (sd.isNone && !(isScalar (getV s out).data)) = false ∧
    (getV s out).requires_grad = true ∧
    s' = { s with values := writeGrads s.values 0 (pendingOf s out (sd.getD [1])) } := by
  unfold backward at h
  split at h
  · exact Except.noConfusion h
  · split at h
    · exact Except.noConfusion h
    · rename_i h1 h2
      refine ⟨by simpa using h1, by simpa using h2, ?_⟩
      injection h with h
      exact h.symm

lemma backward_ok_getV (s : EngineState) (out : Nat) (sd : Option (List ℚ))
    (s' : EngineState) (h : backward s out sd = .ok s') (k : Nat) :
    getV s' k = writeOne (getV s k) (pendingOf s out (sd.getD [1]) k) := by
  obtain ⟨-, -, hs⟩ := backward_ok_elim s out sd s' h
  subst hs
  show (writeGrads s.values 0 _).getD k defaultValue = _
  rw [writeGrads_getD]
  simp [getV]

lemma backward_ok_tracking (s : EngineState) (out : Nat) (sd : Option (List ℚ))
    (s' : EngineState) (h : backward s out sd = .ok s') : s'.tracking = s.tracking := by
  obtain ⟨-, -, hs⟩ := backward_ok_elim s out sd s' h
  subst hs
  rfl

lemma backStep_congr (d d' : Nat → List ℚ) (pr pr' : Nat → Option GraphNode)
    (hd : d = d') (hp : pr = pr') (i : Nat) (pend : Nat → Option (List ℚ)) :
    backStep d pr i pend = backStep d' pr' i pend := by
  rw [hd, hp]

lemma runBack_congr (s s' : EngineState) (hd : dataOfS s = dataOfS s')
    (hp : prodOfS s = prodOfS s') (n : Nat) (pend : Nat → Option (List ℚ)) :
    runBack s n pend = runBack s' n pend := by
  induction n generalizing pend with
  | zero => simp [runBack, hd, hp]
  | succ m ih => simp [runBack, hd, hp, ih]

lemma pendingOf_congr (s s' : EngineState) (hd : dataOfS s = dataOfS s')
    (hp : prodOfS s = prodOfS s') (out : Nat) (seedv : List ℚ) :
    pendingOf s out seedv = pendingOf s' out seedv := by
  unfold pendingOf
  exact runBack_congr s s' hd hp out _

lemma backward_ok_dataOf (s : EngineState) (out : Nat) (sd : Option (List ℚ))
    (s' : EngineState) (h : backward s out sd = .ok s') : dataOfS s' = dataOfS s := by
  funext k
  simp [dataOfS, backward_ok_getV s out sd s' h k, writeOne_data]

lemma backward_ok_prodOf (s : EngineState) (out : Nat) (sd : Option (List ℚ))
    (s' : EngineState) (h : backward s out sd = .ok s') : prodOfS s' = prodOfS s := by
  funext k
  simp [prodOfS, backward_ok_getV s out sd s' h k, writeOne_producer]

lemma zipWith_add_self (g : List ℚ) : addData g g = g.map (fun q => 2 * q) := by
  induction g with
  | nil => rfl
  | cons a t ih =>
    show (a + a) :: addData t t = (2 * a) :: t.map (fun q => 2 * q)
    rw [ih]
    congr 1
    ring

lemma applyOp_tracking (s : EngineState) (op : Op) (i j : Nat) :
    (applyOp s op i j).tracking = s.tracking := rfl

lemma applyOp_getV_lt (s : EngineState) (op : Op) (i j k : Nat)
    (h : k < s.values.length) : getV (applyOp s op i j) k = getV s k := by
  show (s.values ++ [newValue s op i j]).getD k defaultValue = _
  exact getD_append_lt s.values _ defaultValue k h

lemma applyOp_getV_new (s : EngineState) (op : Op) (i j : Nat) :
    getV (applyOp s op i j) s.values.length = newValue s op i j := by
  show (s.values ++ [newValue s op i j]).getD s.values.length defaultValue = _
  exact getD_append_self s.values _ defaultValue

lemma applyOp_length (s : EngineState) (op : Op) (i j : Nat) :
    (applyOp s op i j).values.length = s.values.length + 1 := by
  simp [applyOp]

lemma newValue_no_track (s : EngineState) (op : Op) (i j : Nat) (h : s.tracking = false) :
    (newValue s op i j).requires_grad = false ∧ (newValue s op i j).producer = none := by
  unfold newValue
  rw [h]
  simp

lemma applyMany_tracking (prog : List (Op × Nat × Nat)) (s : EngineState) :
    (applyMany s prog).tracking = s.tracking := by
  induction prog generalizing s with
  | nil => rfl
  | cons st rest ih =>
    show (applyMany (applyOp s st.1 st.2.1 st.2.2) rest).tracking = s.tracking
    rw [ih, applyOp_tracking]

lemma applyMany_length_le (prog : List (Op × Nat × Nat)) (s : EngineState) :
    s.values.length ≤ (applyMany s prog).values.length := by
  induction prog generalizing s with
  | nil => exact Nat.le_refl _
  | cons st rest ih =>
    show s.values.length ≤ (applyMany (applyOp s st.1 st.2.1 st.2.2) rest).values.length
    calc s.values.length ≤ (applyOp s st.1 st.2.1 st.2.2).values.length := by
          rw [applyOp_length]; omega
      _ ≤ _ := ih _

lemma applyMany_getV_lt (prog : List (Op × Nat × Nat)) (s : EngineState) (k : Nat)
    (h : k < s.values.length) : getV (applyMany s prog) k = getV s k := by
  induction prog generalizing s with
  | nil => rfl
  | cons st rest ih =>
    show getV (applyMany (applyOp s st.1 st.2.1 st.2.2) rest) k = getV s k
    rw [ih _ (by rw [applyOp_length]; omega), applyOp_getV_lt s st.1 st.2.1 st.2.2 k h]

lemma applyMany_new_rg (prog : List (Op × Nat × Nat)) (s : EngineState)
    (htrack : s.tracking = false) (k : Nat) (hk : s.values.length ≤ k) :
    (getV (applyMany s prog) k).requires_grad = false := by
  induction prog generalizing s with
  | nil =>
    show (getV s k).requires_grad = false
    have hdef : s.values.getD k defaultValue = defaultValue := by
      apply List.getD_eq_default
      omega
    show (s.values.getD k defaultValue).requires_grad = false
    rw [hdef]
    rfl
  | cons st rest ih =>
    show (getV (applyMany (applyOp s st.1 st.2.1 st.2.2) rest) k).requires_grad = false
    by_cases hcase : s.values.length = k
    · subst hcase
      by_cases h2 : s.values.length < (applyMany (applyOp s st.1 st.2.1 st.2.2) rest).values.length
      · rw [applyMany_getV_lt rest _ _ (by rw [applyOp_length]; omega)]
        rw [applyOp_getV_new]
        exact (newValue_no_track s st.1 st.2.1 st.2.2 htrack).1
      · rw [applyMany_getV_lt rest _ _ (by rw [applyOp_length]; omega)]
        rw [applyOp_getV_new]
        exact (newValue_no_track s st.1 st.2.1 st.2.2 htrack).1
    · exact ih (applyOp s st.1 st.2.1 st.2.2)
        (by rw [applyOp_tracking]; exact htrack)
        (by rw [applyOp_length]; omega)

lemma retainGrad_dataOf (s : EngineState) (v : Nat) : dataOfS (retainGrad s v) = dataOfS s := by
  funext k
  show ((s.values.set v _).getD k defaultValue).data = ((s.values.getD k defaultValue)).data
  by_cases hv : v < s.values.length
  · by_cases hk : k = v
    · subst hk
      rw [getD_set_self s.values k _ defaultValue hv]
      rfl
    · rw [getD_set_ne s.values v k _ defaultValue hk]
  · rw [set_of_length_le s.values v _ (by omega)]

lemma retainGrad_prodOf (s : EngineState) (v : Nat) : prodOfS (retainGrad s v) = prodOfS s := by
  funext k
  show ((s.values.set v _).getD k defaultValue).producer = ((s.values.getD k defaultValue)).producer
  by_cases hv : v < s.values.length
  · by_cases hk : k = v
    · subst hk
      rw [getD_set_self s.values k _ defaultValue hv]
      rfl
    · rw [getD_set_ne s.values v k _ defaultValue hk]
  · rw [set_of_length_le s.values v _ (by omega)]

lemma retainGrad_getV_ne (s : EngineState) (v k : Nat) (h : k ≠ v) :
    getV (retainGrad s v) k = getV s k := by
  show (s.values.set v _).getD k defaultValue = s.values.getD k defaultValue
  exact getD_set_ne s.values v k _ defaultValue h

lemma retainGrad_data (s : EngineState) (v : Nat) :
    (getV (retainGrad s v) v).data = (getV s v).data := congrFun (retainGrad_dataOf s v) v

lemma retainGrad_rg (s : EngineState) (v : Nat) :
    (getV (retainGrad s v) v).requires_grad = (getV s v).requires_grad := by
  show ((s.values.set v _).getD v defaultValue).requires_grad = _
  by_cases hv : v < s.values.length
  · rw [getD_set_self s.values v _ defaultValue hv]
  · rw [set_of_length_le s.values v _ (by omega)]
    rfl

lemma writeOne_none (v : Value) : writeOne v none = v := by
  unfold writeOne
  split <;> rfl

lemma writeOne_some_marked (v : Value) (g : List ℚ) (hrg : v.requires_grad = true)
    (hm : (v.producer.isNone || v.retains_grad) = true) :
    writeOne v (some g) = { v with gradient := some (accumGrad v.gradient g) } := by
  unfold writeOne
  rw [hrg, hm]
  simp

lemma writeOne_unmarked (v : Value) (p : Option (List ℚ))
    (h : (v.requires_grad && (v.producer.isNone || v.retains_grad)) = false) :
    writeOne v p = v := by
  unfold writeOne
  rw [h]
  simp

lemma backward_run (s : EngineState) (out : Nat) (sd : Option (List ℚ))
    (hc1 : (sd.isNone && !(isScalar (getV s out).data)) = false)
    (hc2 : (getV s out).requires_grad = true) :
    backward s out sd =
      .ok { s with values := writeGrads s.values 0 (pendingOf s out (sd.getD [1])) } := by
  unfold backward
  rw [hc1, hc2]
  simp

lemma writeOne_twice_marked (v : Value) (g : List ℚ) (hrg : v.requires_grad = true)
    (hm : (v.producer.isNone || v.retains_grad) = true) (hg0 : v.gradient = none) :
    writeOne (writeOne v (some g)) (some g) = { v with gradient := some (addData g g) } := by
  rw [writeOne_some_marked v g hrg hm]
  rw [writeOne_some_marked { v with gradient := some (accumGrad v.gradient g) } g hrg hm]
  rw [hg0]
  rfl


/-- Claim C1: for the diamond graph built from a leaf Value `a` with
`requires_grad` true — `b = a + 2`, `c = 5*a`, `d = b + c` — calling
backward on `d` sets `a`'s gradient to 6: the engine accumulates the
contributions arriving at `a` along both paths (1 through `b`, 5 through
`c`) before `a`'s slot is finalized, rather than finalizing once per
incoming path. -/
theorem diamond_backward_sums_paths (q : ℚ) :
    (backward (diamond q) 5 none).map (fun t => (getV t 0).gradient) = .ok (some [6]) := by
  simp [diamond, backward, mkLeaf, applyOp, newValue, getV, pendingOf, runBack, backStep,
    dataOfS, prodOfS, updatePend, addPend, writeGrads, writeOne, accumGrad, addData, mulData,
    Op.forward, Op.backwardRule, isScalar, defaultValue, Except.map]
  norm_num

/-- Claim C2: for a leaf Value `x = 2.0` with `requires_grad` true,
computing `y = 3 * x^2 + 4` and calling backward on `y` leaves `x`'s
gradient equal to 12 (the exact derivative `6x` at `x = 2`). -/
theorem poly_backward_gradient :
    (backward polyState 5 none).map (fun t => (getV t 0).gradient) = .ok (some [12]) := by
  simp [polyState, backward, mkLeaf, applyOp, newValue, getV, pendingOf, runBack, backStep,
    dataOfS, prodOfS, updatePend, addPend, writeGrads, writeOne, accumGrad, addData, mulData,
    Op.forward, Op.backwardRule, isScalar, defaultValue, Except.map]
  norm_num

/-- Claim C3: for every leaf Value `x` with `requires_grad` true whose
gradient is absent, if one backward pass from `out` succeeds, a second
backward pass succeeds as well and leaves `x`'s gradient equal to exactly
2 times the single-pass gradient: the gradient attribute is accumulated
with `+=` semantics, never overwritten.  (The backward pass does not
modify data, producers or flags, so re-running it is the same as
recomputing `y` and calling backward again.) -/
theorem backward_accumulates_across_calls (s : EngineState) (out x : Nat)
    (sd : Option (List ℚ)) (s1 : EngineState)
    (hleaf : (getV s x).producer = none) (hrg : (getV s x).requires_grad = true)
    (hg0 : (getV s x).gradient = none) (h1 : backward s out sd = .ok s1) :
    ∃ s2, backward s1 out sd = .ok s2 ∧
      (getV s2 x).gradient =
        Option.map (fun g => g.map (fun q => 2 * q)) (getV s1 x).gradient := by
  obtain ⟨hc1, hc2, -⟩ := backward_ok_elim s out sd s1 h1
  have hdat := backward_ok_dataOf s out sd s1 h1
  have hprod := backward_ok_prodOf s out sd s1 h1
  have hpend : pendingOf s1 out (sd.getD [1]) = pendingOf s out (sd.getD [1]) :=
    pendingOf_congr s1 s hdat hprod out _
  have hout_data : (getV s1 out).data = (getV s out).data := congrFun hdat out
  have hout_rg : (getV s1 out).requires_grad = true := by
    rw [backward_ok_getV s out sd s1 h1 out, writeOne_rg]
    exact hc2
  have h2 := backward_run s1 out sd (by rw [hout_data]; exact hc1) hout_rg
  refine ⟨_, h2, ?_⟩
  have hx1 : getV s1 x = writeOne (getV s x) (pendingOf s out (sd.getD [1]) x) :=
    backward_ok_getV s out sd s1 h1 x
  have hx2 := backward_ok_getV s1 out sd _ h2 x
  rw [hx2, hpend, hx1]
  cases hp : pendingOf s out (sd.getD [1]) x with
  | none =>
    rw [writeOne_none, writeOne_none, hg0]
    rfl
  | some g =>
    have hmark : ((getV s x).producer.isNone || (getV s x).retains_grad) = true := by
      rw [hleaf]
      rfl
    rw [writeOne_twice_marked (getV s x) g hrg hmark hg0,
        writeOne_some_marked (getV s x) g hrg hmark, hg0]
    show some (addData g g) = some (List.map (fun q => 2 * q) g)
    rw [zipWith_add_self]

/-- Witness for C3 on the graph `y = x * x` at `x = 3`: the first pass
writes gradient 6, the second pass doubles it. -/
theorem backward_accumulates_across_calls_witness :
    ∃ s2, backward wit3State1 1 none = .ok s2 ∧
      (getV s2 0).gradient =
        Option.map (fun g => g.map (fun q => 2 * q)) (getV wit3State1 0).gradient :=
  backward_accumulates_across_calls wit3State 1 0 none wit3State1 rfl rfl rfl (by
    simp [wit3State, wit3State1, backward, mkLeaf, applyOp, newValue, getV, pendingOf,
      runBack, backStep, dataOfS, prodOfS, updatePend, addPend, writeGrads, writeOne,
      accumGrad, addData, mulData, Op.forward, Op.backwardRule, isScalar, defaultValue]
    norm_num)

/-- Claim C4: `detach` returns a new Value with data identical to the
source Value's data, `requires_grad` false, `is_leaf` true and no
producer, without mutating any existing Value; and because the detached
Value has no producer, the backward traversal's step at it propagates
nothing to any other Value (no gradient crosses the detach boundary),
nor is a gradient ever written to the detached Value itself. -/
theorem detach_severs_history (s : EngineState) (i : Nat) :
    (getV (detach s i) s.values.length).data = (getV s i).data ∧
    (getV (detach s i) s.values.length).requires_grad = false ∧
    (getV (detach s i) s.values.length).is_leaf = true ∧
    (getV (detach s i) s.values.length).producer = none ∧
    (detach s i).values.length = s.values.length + 1 ∧
    (∀ k, k < s.values.length → getV (detach s i) k = getV s k) ∧
    (∀ pend, backStep (dataOfS (detach s i)) (prodOfS (detach s i)) s.values.length pend = pend) ∧
    (∀ out sd s2, backward (detach s i) out sd = .ok s2 →
      (getV s2 s.values.length).gradient = none) := by
  have hnew : getV (detach s i) s.values.length =
      { data := (getV s i).data, requires_grad := false, gradient := none,
        producer := none, retains_grad := false } := getD_append_self s.values _ defaultValue
  refine ⟨by rw [hnew], by rw [hnew], by rw [hnew]; rfl, by rw [hnew], by simp [detach],
    fun k hk => getD_append_lt s.values _ defaultValue k hk, fun pend => ?_, fun out sd s2 hok => ?_⟩
  · have hp : prodOfS (detach s i) s.values.length = none := by
      show (getV (detach s i) s.values.length).producer = none
      rw [hnew]
    unfold backStep
    rw [hp]
    cases pend s.values.length <;> rfl
  · have hcond : ((getV (detach s i) s.values.length).requires_grad &&
        ((getV (detach s i) s.values.length).producer.isNone ||
         (getV (detach s i) s.values.length).retains_grad)) = false := by
      rw [hnew]
      rfl
    rw [backward_ok_getV _ out sd s2 hok _, writeOne_unmarked _ _ hcond, hnew]

/-- Witness for C4 on a two-Value graph, detaching the node Value. -/
theorem detach_severs_history_witness :
    (getV (detach wit4State 1) 2).data = (getV wit4State 1).data ∧
    (getV (detach wit4State 1) 2).requires_grad = false ∧
    getV (detach wit4State 1) 0 = getV wit4State 0 :=
  have h := detach_severs_history wit4State 1
  ⟨h.1, h.2.1, h.2.2.2.2.2.1 0 (by decide)⟩

/-- Claim C5: any operation applied while tracking is disabled yields a
result Value with `requires_grad` false — regardless of the inputs'
flags, which are universally quantified here — and records no Graph Node
(the result's producer is absent). -/
theorem apply_tracking_disabled (s : EngineState) (op : Op) (i j : Nat)
    (h : s.tracking = false) :
    (getV (applyOp s op i j) s.values.length).requires_grad = false ∧
    (getV (applyOp s op i j) s.values.length).producer = none := by
  rw [applyOp_getV_new]
  exact newValue_no_track s op i j h

/-- Witness for C5: squaring a gradient-requiring leaf with tracking
disabled yields a result without gradient requirement or history. -/
theorem apply_tracking_disabled_witness :
    (getV (applyOp wit5State .mul 0 0) 1).requires_grad = false ∧
    (getV (applyOp wit5State .mul 0 0) 1).producer = none :=
  apply_tracking_disabled wit5State .mul 0 0 rfl

/-- Claim C6, counterexample: at a state whose output Value is non-scalar,
unseeded AND has `requires_grad` false, the engine fails with ShapeError
(the spec's step 1 precedes its step 2), so the claim's "fails with a
GraphError whenever output's requires_grad is false" does not hold as
stated at this input. -/
theorem backward_error_precedence_cex :
    (getV cexState 0).requires_grad = false ∧
    backward cexState 0 none = .error .shapeError ∧
    backward cexState 0 none ≠ .error .graphError := by
  refine ⟨rfl, rfl, fun h => ?_⟩
  rw [show backward cexState 0 none = .error .shapeError from rfl] at h
  cases h

/-- Claim C6, amended: backward fails with a ShapeError whenever the
output's data is non-scalar and no explicit seed is supplied; it fails
with a GraphError whenever the output's `requires_grad` is false and the
shape check of step 1 passes (the checks run in the spec's order 1 then
2).  In both cases the result is an error carrying no state, so no
gradient is written to any Value. -/
theorem backward_error_checks (s : EngineState) (out : Nat) (sd : Option (List ℚ)) :
    (sd = none → isScalar (getV s out).data = false → backward s out sd = .error .shapeError) ∧
    ((getV s out).requires_grad = false → (sd ≠ none ∨ isScalar (getV s out).data = true) →
      backward s out sd = .error .graphError) := by
  constructor
  · intro h1 h2
    unfold backward
    rw [h1, h2]
    simp
  · intro h1 h2
    have hc : (sd.isNone && !(isScalar (getV s out).data)) = false := by
      rcases h2 with h2 | h2
      · have hn : sd.isNone = false := by
          cases sd with
          | none => exact absurd rfl h2
          | some g => rfl
        rw [hn]
        rfl
      · rw [h2]
        simp
    unfold backward
    rw [hc, h1]
    simp

/-- Witness for C6 on a scalar Value that does not require gradient:
backward fails with GraphError. -/
theorem backward_error_checks_witness :
    backward wit6State 0 none = .error .graphError :=
  (backward_error_checks wit6State 0 none).2 rfl (Or.inr rfl)

/-- Claim C7: a non-leaf Value `v` whose gradient is absent before the
pass still has an absent gradient after a successful backward pass unless
`retain_grad` was called on it beforehand; and if it was marked (and
requires gradient), its accumulated pending gradient is kept in the
`gradient` attribute. -/
theorem backward_gradient_retention (s : EngineState) (out v : Nat)
    (sd : Option (List ℚ)) (s' : EngineState) (h : backward s out sd = .ok s')
    (hnode : (getV s v).producer ≠ none) (hg0 : (getV s v).gradient = none) :
    ((getV s v).retains_grad = false → (getV s' v).gradient = none) ∧
    ((getV s v).retains_grad = true → (getV s v).requires_grad = true →
      ∀ g, pendingOf s out (sd.getD [1]) v = some g → (getV s' v).gradient = some g) := by
  have hv := backward_ok_getV s out sd s' h v
  have hno : (getV s v).producer.isNone = false := by
    cases hp : (getV s v).producer with
    | none => exact absurd hp hnode
    | some n => rfl
  constructor
  · intro hret
    rw [hv, writeOne_unmarked _ _ (by rw [hno, hret]; simp)]
    exact hg0
  · intro hret hrg g hpend
    rw [hv, hpend, writeOne_some_marked _ _ hrg (by rw [hret, hno]; rfl)]
    show some (accumGrad (getV s v).gradient g) = some g
    rw [hg0]
    rfl

/-- Witness for C7 on `y = x + x`: the unretained node `y` keeps no
gradient after backward. -/
theorem backward_gradient_retention_witness :
    ((getV wit7State 1).retains_grad = false → (getV wit7State1 1).gradient = none) ∧
    ((getV wit7State 1).retains_grad = true → (getV wit7State 1).requires_grad = true →
      ∀ g, pendingOf wit7State 1 ((none : Option (List ℚ)).getD [1]) 1 = some g →
        (getV wit7State1 1).gradient = some g) :=
  backward_gradient_retention wit7State 1 1 none wit7State1 (by
    simp [wit7State, wit7State1, backward, mkLeaf, applyOp, newValue, getV, pendingOf,
      runBack, backStep, dataOfS, prodOfS, updatePend, addPend, writeGrads, writeOne,
      accumGrad, addData, mulData, Op.forward, Op.backwardRule, isScalar, defaultValue]
    norm_num) (by decide) rfl

/-- Claim C8: the tracking-disabled scope restores the previous tracking
flag on every exit path — the body `f` is an arbitrary state
transformation, covering normal return, early exit and failure — and
nesting is legal: the inner exit restores the flag seen at the inner
entry (still disabled), so when tracking was originally enabled the flag
equals its original value only after both exits. -/
theorem no_grad_scope_restores (s : EngineState) (prog1 prog2 : List (Op × Nat × Nat)) :
    (∀ f : EngineState → EngineState,
      (exitNoGrad (enterNoGrad s).1 (f (enterNoGrad s).2)).tracking = s.tracking) ∧
    (let p1 := (enterNoGrad s).1
     let t1 := (enterNoGrad s).2
     let t2 := applyMany t1 prog1
     let p2 := (enterNoGrad t2).1
     let t3 := (enterNoGrad t2).2
     let t4 := applyMany t3 prog2
     (exitNoGrad p2 t4).tracking = t2.tracking ∧
     (exitNoGrad p1 (exitNoGrad p2 t4)).tracking = s.tracking ∧
     (s.tracking = true → (exitNoGrad p2 t4).tracking = false)) := by
  constructor
  · intro f
    rfl
  · refine ⟨rfl, rfl, fun h => ?_⟩
    show (applyMany (enterNoGrad s).2 prog1).tracking = false
    rw [applyMany_tracking]
    rfl

/-- Witness for C8 with enabled initial tracking and empty bodies. -/
theorem no_grad_scope_restores_witness :
    (exitNoGrad (enterNoGrad wit8State).1 (id (enterNoGrad wit8State).2)).tracking
        = wit8State.tracking ∧
    (exitNoGrad (enterNoGrad (applyMany (enterNoGrad wit8State).2 [])).1
        (applyMany (enterNoGrad (applyMany (enterNoGrad wit8State).2 [])).2 [])).tracking
        = false :=
  have h := no_grad_scope_restores wit8State [] []
  ⟨h.1 id, h.2.2.2 rfl⟩

/-- Claim C9: entering the tracking-disabled scope mutates no existing
Value — every Value present before the scope is unchanged inside and
after the scope (in particular its `requires_grad` stays true if it was
true) — and only the Values produced by operations applied inside the
scope carry `requires_grad` false. -/
theorem no_grad_scope_preserves_values (s : EngineState) (prog : List (Op × Nat × Nat)) :
    (enterNoGrad s).2.values = s.values ∧
    (∀ k, k < s.values.length →
      getV (applyMany (enterNoGrad s).2 prog) k = getV s k ∧
      getV (exitNoGrad (enterNoGrad s).1 (applyMany (enterNoGrad s).2 prog)) k = getV s k) ∧
    (∀ k, s.values.length ≤ k →
      (getV (applyMany (enterNoGrad s).2 prog) k).requires_grad = false) := by
  refine ⟨rfl, fun k hk => ?_, fun k hk => ?_⟩
  · have h := applyMany_getV_lt prog (enterNoGrad s).2 k hk
    exact ⟨h, h⟩
  · exact applyMany_new_rg prog (enterNoGrad s).2 rfl k hk

/-- Witness for C9: a pre-existing gradient-requiring leaf is unchanged by
an operation run inside the scope, while the Value that operation
produces does not require gradient. -/
theorem no_grad_scope_preserves_values_witness :
    getV (applyMany (enterNoGrad wit9State).2 [(Op.mul, 0, 0)]) 0 = getV wit9State 0 ∧
    (getV (applyMany (enterNoGrad wit9State).2 [(Op.mul, 0, 0)]) 1).requires_grad = false :=
  have h := no_grad_scope_preserves_values wit9State [(Op.mul, 0, 0)]
  ⟨(h.2.1 0 (by decide)).1, h.2.2 1 (by decide)⟩

/-- Claim C10: `retain_grad` on a Value changes neither its data nor its
`requires_grad` flag and leaves every other Value untouched; and a
subsequent backward pass succeeds exactly as before and computes
identical gradients for every other Value (in particular every leaf). -/
theorem retain_grad_only_local_effect (s : EngineState) (v out : Nat)
    (sd : Option (List ℚ)) (s1 : EngineState) (h1 : backward s out sd = .ok s1) :
    (getV (retainGrad s v) v).data = (getV s v).data ∧
    (getV (retainGrad s v) v).requires_grad = (getV s v).requires_grad ∧
    (∀ w, w ≠ v → getV (retainGrad s v) w = getV s w) ∧
    ∃ s2, backward (retainGrad s v) out sd = .ok s2 ∧
      ∀ w, w ≠ v → (getV s2 w).gradient = (getV s1 w).gradient := by
  obtain ⟨hc1, hc2, -⟩ := backward_ok_elim s out sd s1 h1
  refine ⟨retainGrad_data s v, retainGrad_rg s v,
    fun w hw => retainGrad_getV_ne s v w hw, ?_⟩
  have hdat := retainGrad_dataOf s v
  have hprod := retainGrad_prodOf s v
  have hrg_out : (getV (retainGrad s v) out).requires_grad = true := by
    by_cases hov : out = v
    · subst hov
      rw [retainGrad_rg]
      exact hc2
    · rw [retainGrad_getV_ne s v out hov]
      exact hc2
  have hdata_out : (getV (retainGrad s v) out).data = (getV s out).data := congrFun hdat out
  have h2 := backward_run (retainGrad s v) out sd (by rw [hdata_out]; exact hc1) hrg_out
  refine ⟨_, h2, fun w hw => ?_⟩
  rw [backward_ok_getV (retainGrad s v) out sd _ h2 w,
    backward_ok_getV s out sd s1 h1 w, retainGrad_getV_ne s v w hw,
    pendingOf_congr (retainGrad s v) s hdat hprod out (sd.getD [1])]

/-- Witness for C10 on `y = x * x` at `x = 5`, retaining the node `y`:
the leaf's gradient is the same as without the marking. -/
theorem retain_grad_only_local_effect_witness :
    (getV (retainGrad wit10State 1) 1).data = (getV wit10State 1).data ∧
    ∃ s2, backward (retainGrad wit10State 1) 1 none = .ok s2 ∧
      ∀ w, w ≠ 1 → (getV s2 w).gradient = (getV wit10State1 w).gradient :=
  have h := retain_grad_only_local_effect wit10State 1 1 none wit10State1 (by
    simp [wit10State, wit10State1, backward, mkLeaf, applyOp, newValue, getV, pendingOf,
      runBack, backStep, dataOfS, prodOfS, updatePend, addPend, writeGrads, writeOne,
      accumGrad, addData, mulData, Op.forward, Op.backwardRule, isScalar, defaultValue]
    norm_num)
  ⟨h.1, h.2.2.2⟩
